import Mathlib

/-!
# Offline cache manager of `dictee-vocale` (src/sw.js)

Shallow embedding of the service worker script and of the part of the host
platform it talks to.

* The script (three event listeners and two constants) is translated from
  `src/sw.js`, promise chain by promise chain.
* The host (`fetch`, `caches.open/keys/delete/match`, `cache.addAll/put`,
  `console.log`) is not part of the repository.  It is modelled after the
  Cache interface of the Service Worker standard:
  - a cache storage is the ordered name-to-cache map, here a list of named
    buckets in creation order;
  - a bucket is the ordered request-response list of the standard;
  - a stored request matches a query when both use the method GET and the
    URLs agree once their fragments (the part from the first `#` on) are
    left out (the Vary header and the query options are not modelled);
  - URLs are written the way the manifest writes them: a URL on the origin
    of the worker as a reference starting with `/`, without scheme, any
    other URL in full; the worker itself is served over http or https, so a
    reference without a scheme counts as http(s);
  - `cache.put` rejects a request whose method is not GET or whose URL has a
    scheme other than http or https, and a response of status 206;
    `cache.addAll` makes the same checks on its requests, is all-or-nothing
    and rejects as soon as one fetch fails or answers with a status outside
    200..299 (or 206), or when two of its requests match each other;
  - `caches.match` searches every bucket in creation order.
* Promises are modelled by their settled outcome together with the effect on
  the world (cache storage plus the trace of host calls).  Handlers run to
  completion one at a time; interleavings of concurrent handlers are not
  modelled.
-/

namespace DicteeVocale

/-! ## Data model -/

/-- Request identifier: method and URL. -/
structure Request where
  method : String
  url : String
deriving DecidableEq

/-- Response snapshot: status code and body. -/
structure Response where
  status : Nat
  body : String
deriving DecidableEq

/-- Named bucket: the request-response list of one cache, oldest entry first. -/
structure Bucket where
  name : String
  entries : List (Request × Response)
deriving DecidableEq

/-- Cache storage of the origin: buckets in creation order. -/
abbrev CacheStorage := List Bucket

/-- Calls the script makes on the host, recorded in program order. -/
inductive HostCall where
  | consoleLog (args : List String)
  | fetch (request : Request)
  | cachesOpen (name : String)
  | cacheAddAll (cache : String) (urls : List String)
  | cachePut (cache : String) (request : Request) (response : Response)
  | cachesKeys
  | cachesDelete (name : String)
  | cachesMatch (request : Request)
deriving DecidableEq

/-- World the handlers act on: the cache storage and the trace of host calls. -/
structure World where
  caches : CacheStorage
  trace : List HostCall
deriving DecidableEq

/-- Behaviour of the host during one handler: what the network answers to each
request (`none` is a rejected fetch), whether opening a bucket succeeds and
whether a write to a bucket is accepted by the storage back end. -/
structure Env where
  net : Request → Option Response
  openOk : Bool
  writeOk : Bool

/-- Outcome of a settled promise. -/
inductive Settled (α : Type) where
  | fulfilled (value : α)
  | rejected (reason : String)
deriving DecidableEq

/-- Promise: the outcome it settles with and the world it leaves behind. -/
def Promise (α : Type) : Type := World → Settled α × World

namespace Promise

/-- Promise already fulfilled with `v`. -/
def resolve {α : Type} (v : α) : Promise α := fun w => (Settled.fulfilled v, w)

/-- JavaScript `p.then(f)`: a rejection of `p` skips `f`. -/
def andThen {α β : Type} (p : Promise α) (f : α → Promise β) : Promise β := fun w =>
  match p w with
  | (Settled.fulfilled v, w1) => f v w1
  | (Settled.rejected e, w1) => (Settled.rejected e, w1)

/-- JavaScript `p.catch(h)`: a fulfilment of `p` skips `h`. -/
def catchWith {α : Type} (p : Promise α) (h : String → Promise α) : Promise α := fun w =>
  match p w with
  | (Settled.fulfilled v, w1) => (Settled.fulfilled v, w1)
  | (Settled.rejected e, w1) => h e w1

/-- Promise started but neither returned nor awaited: its effects happen, its
outcome is dropped and the caller carries on with `undefined`. -/
def detach {α : Type} (p : Promise α) : Promise Unit := fun w =>
  (Settled.fulfilled (), (p w).2)

/-- JavaScript `Promise.all` over promises that were all started, in order:
every effect happens; the result is the list of values, or the first rejection. -/
def all {α : Type} : List (Promise α) → Promise (List α)
  | [] => resolve []
  | p :: ps => fun w =>
    match p w with
    | (Settled.fulfilled v, w1) =>
      match all ps w1 with
      | (Settled.fulfilled vs, w2) => (Settled.fulfilled (v :: vs), w2)
      | (Settled.rejected e, w2) => (Settled.rejected e, w2)
    | (Settled.rejected e, w1) => (Settled.rejected e, (all ps w1).2)

end Promise

/-! ## Host model -/

/-- Record a host call in the trace. -/
def World.record (w : World) (c : HostCall) : World :=
  ⟨w.caches, w.trace ++ [c]⟩

/-- GET request for a URL, as `cache.addAll` builds it from a string. -/
def Request.get (url : String) : Request := ⟨"GET", url⟩

/-- Copy of a response, `response.clone()`. -/
def Response.clone (r : Response) : Response := ⟨r.status, r.body⟩

/-- Ok status of the Fetch standard: 200 to 299. -/
def Response.ok (r : Response) : Bool := decide (200 ≤ r.status) && decide (r.status ≤ 299)

/-- URL with its fragment excluded: the characters before the first `#`. -/
def stripFragment (url : String) : String :=
  String.mk (url.data.takeWhile (fun c => c != '#'))

/-- Character allowed in a URL scheme. -/
def isSchemeChar (c : Char) : Bool :=
  c.isAlphanum || c == '+' || c == '-' || c == '.'

/-- Scheme of an absolute URL, in lower case: the characters before the first
colon when they form a scheme; `none` for a reference without a scheme. -/
def urlScheme (url : String) : Option String :=
  let pre := url.data.takeWhile (fun c => c != ':')
  if decide (pre.length < url.data.length) && (pre.head?.map Char.isAlpha).getD false &&
      pre.all isSchemeChar then
    some (String.mk (pre.map Char.toLower))
  else none

/-- Whether the URL is fetched over http or https; a reference without a scheme
is resolved against the location of the worker, which is. -/
def schemeIsHttp (url : String) : Bool :=
  match urlScheme url with
  | none => true
  | some scheme => decide (scheme = "http") || decide (scheme = "https")

/-- Whether the stored request `cached` matches the query `query`: both are
GET requests and their URLs agree with the fragments excluded. -/
def requestMatches (query cached : Request) : Bool :=
  decide (query.method = "GET") && decide (cached.method = "GET") &&
    decide (stripFragment query.url = stripFragment cached.url)

/-- Lookup in one request-response list, `cache.match(request)`: the response
of the first matching entry, `none` for `undefined`. -/
def cacheMatch (entries : List (Request × Response)) (request : Request) : Option Response :=
  (entries.find? (fun e => requestMatches request e.1)).map (fun e => e.2)

/-- Bucket with the given name, if any. -/
def findBucket (s : CacheStorage) (name : String) : Option Bucket :=
  s.find? (fun b => decide (b.name = name))

/-- Lookup of a request key in the bucket with the given name. -/
def bucketMatch (s : CacheStorage) (name : String) (request : Request) : Option Response :=
  (findBucket s name).bind (fun b => cacheMatch b.entries request)

/-- Lookup across the whole storage: the first bucket, in creation order, that
holds a matching entry answers. -/
def storageMatch : CacheStorage → Request → Option Response
  | [], _ => none
  | b :: rest, request =>
    match cacheMatch b.entries request with
    | some r => some r
    | none => storageMatch rest request

/-- Storage with a bucket `name` guaranteed: created empty, last, when absent. -/
def ensureBucket (s : CacheStorage) (name : String) : CacheStorage :=
  if (findBucket s name).isSome then s else s ++ [⟨name, []⟩]

/-- Request-response list after one put: matching entries go, the new pair is
appended. -/
def putEntry (entries : List (Request × Response)) (item : Request × Response) :
    List (Request × Response) :=
  entries.filter (fun e => !requestMatches item.1 e.1) ++ [item]

/-- Apply `f` to the entries of the bucket called `name`. -/
def updateBucket (s : CacheStorage) (name : String)
    (f : List (Request × Response) → List (Request × Response)) : CacheStorage :=
  s.map (fun b => if b.name = name then ⟨b.name, f b.entries⟩ else b)

/-- Host `console.log(...args)`. -/
def console_log (args : List String) : Promise Unit := fun w =>
  (Settled.fulfilled (), w.record (HostCall.consoleLog args))

/-- Host `fetch(request)`. -/
def fetch (env : Env) (request : Request) : Promise Response := fun w =>
  match env.net request with
  | some r => (Settled.fulfilled r, w.record (HostCall.fetch request))
  | none => (Settled.rejected "TypeError", w.record (HostCall.fetch request))

/-- Host `caches.open(name)`: fulfils with a handle on the bucket (its name),
creating the bucket when absent. -/
def caches_open (env : Env) (name : String) : Promise String := fun w =>
  if env.openOk then
    (Settled.fulfilled name, ⟨ensureBucket w.caches name, w.trace ++ [HostCall.cachesOpen name]⟩)
  else
    (Settled.rejected "QuotaExceededError", w.record (HostCall.cachesOpen name))

/-- Host `caches.keys()`: the bucket names in creation order. -/
def caches_keys : Promise (List String) := fun w =>
  (Settled.fulfilled (w.caches.map (fun b => b.name)), w.record HostCall.cachesKeys)

/-- Host `caches.delete(name)`: removes the bucket, fulfils with whether it existed. -/
def caches_delete (name : String) : Promise Bool := fun w =>
  (Settled.fulfilled (findBucket w.caches name).isSome,
    ⟨w.caches.filter (fun b => !decide (b.name = name)), w.trace ++ [HostCall.cachesDelete name]⟩)

/-- Host `caches.match(request)`. -/
def caches_match (request : Request) : Promise (Option Response) := fun w =>
  (Settled.fulfilled (storageMatch w.caches request), w.record (HostCall.cachesMatch request))

/-- Host `cache.put(request, response)` on the bucket behind `cache`. -/
def cache_put (env : Env) (cache : String) (request : Request) (response : Response) :
    Promise Unit := fun w =>
  let w1 := w.record (HostCall.cachePut cache request response)
  if request.method ≠ "GET" then (Settled.rejected "TypeError", w1)
  else if schemeIsHttp request.url = false then (Settled.rejected "TypeError", w1)
  else if response.status = 206 then (Settled.rejected "TypeError", w1)
  else if env.writeOk then
    (Settled.fulfilled (), ⟨updateBucket w1.caches cache (fun es => putEntry es (request, response)),
      w1.trace⟩)
  else (Settled.rejected "QuotaExceededError", w1)

/-- Responses `cache.addAll` obtains for its requests: `none` as soon as one
fetch is rejected or answers with a status that is not ok, or with 206. -/
def fetchAll (env : Env) : List Request → Option (List (Request × Response))
  | [] => some []
  | q :: qs =>
    match env.net q with
    | none => none
    | some r =>
      if r.ok && !decide (r.status = 206) then
        (fetchAll env qs).map (fun rest => (q, r) :: rest)
      else none

/-- Host `cache.addAll(urls)` on the bucket behind `cache`: check the schemes,
fetch everything, then store everything in one batch; a batch in which two
requests match each other is refused. -/
def cache_addAll (env : Env) (cache : String) (urls : List String) : Promise Unit := fun w =>
  let w1 := w.record (HostCall.cacheAddAll cache urls)
  if urls.all schemeIsHttp = false then (Settled.rejected "TypeError", w1)
  else match fetchAll env (urls.map Request.get) with
  | none => (Settled.rejected "TypeError", w1)
  | some items =>
    if ¬ (urls.map stripFragment).Nodup then (Settled.rejected "InvalidStateError", w1)
    else if env.writeOk then
      (Settled.fulfilled (), ⟨updateBucket w1.caches cache (fun es => items.foldl putEntry es),
        w1.trace⟩)
    else (Settled.rejected "QuotaExceededError", w1)

/-! ## The script (src/sw.js) -/

/-- Name of the current bucket, line 1. -/
def CACHE_NAME : String := "dictee-vocale-v1"

/-- Manifest of assets to pre-cache, lines 2-9. -/
def urlsToCache : List String :=
  [ "/dictee-vocale/",
    "/dictee-vocale/index.html",
    "/dictee-vocale/landing.html",
    "/dictee-vocale/manifest.json",
    "https://cdn.tailwindcss.com",
    "https://cdnjs.cloudflare.com/ajax/libs/font-awesome/6.0.0/css/all.min.css" ]

/-- Promise chain of the install listener before its `.catch`, lines 14-18. -/
def installAttempt (env : Env) : Promise Unit :=
  (caches_open env CACHE_NAME).andThen (fun cache =>
    (console_log ["Cache ouvert"]).andThen (fun _ =>
      cache_addAll env cache urlsToCache))

/-- Work the install listener hands to `event.waitUntil`, lines 13-22. -/
def installListener (env : Env) : Promise Unit :=
  (installAttempt env).catchWith (fun err => console_log ["Erreur de cache:", err])

/-- Callback mapped over the bucket names by the activate listener, lines 30-35. -/
def activateEach (cacheName : String) : Promise (Option Bool) :=
  if cacheName ≠ CACHE_NAME then
    (console_log ["Suppression ancien cache:", cacheName]).andThen (fun _ =>
      (caches_delete cacheName).andThen (fun existed => Promise.resolve (some existed)))
  else Promise.resolve none

/-- Work the activate listener hands to `event.waitUntil`, lines 27-38. -/
def activateListener : Promise (List (Option Bool)) :=
  caches_keys.andThen (fun cacheNames => Promise.all (cacheNames.map activateEach))

/-- Store started by the fetch listener for a valid response, lines 48-52: the
put is started inside the `then` callback and not returned. -/
def storeClone (env : Env) (request : Request) (responseClone : Response) : Promise Unit :=
  (caches_open env CACHE_NAME).andThen (fun cache =>
    Promise.detach (cache_put env cache request responseClone))

/-- Callback of the fetch listener on a live response, lines 45-55. -/
def onResponse (env : Env) (request : Request) (response : Response) :
    Promise (Option Response) :=
  if response.status = 200 then
    (Promise.detach (storeClone env request response.clone)).andThen (fun _ =>
      Promise.resolve (some response))
  else Promise.resolve (some response)

/-- Promise the fetch listener hands to `event.respondWith`, lines 43-60;
`none` stands for `undefined`. -/
def fetchListener (env : Env) (request : Request) : Promise (Option Response) :=
  ((fetch env request).andThen (onResponse env request)).catchWith (fun _ =>
    caches_match request)

/-! ## Derived functions used to state the results -/

/-- Entries left in place by a batch of puts: those no item of the batch matches. -/
def survives (items : List (Request × Response)) (e : Request × Response) : Bool :=
  !items.any (fun it => requestMatches it.1 e.1)

/-- Cache storage the install listener leaves behind, as a function of the
storage it starts from; `installListener_caches` shows that this is what
`installListener` computes. -/
def installedCaches (env : Env) (s : CacheStorage) : CacheStorage :=
  if env.openOk then
    match fetchAll env (urlsToCache.map Request.get) with
    | some items =>
      if env.writeOk then
        updateBucket (ensureBucket s CACHE_NAME) CACHE_NAME (fun es => items.foldl putEntry es)
      else ensureBucket s CACHE_NAME
    | none => ensureBucket s CACHE_NAME
  else s

/-- Buckets of a storage other than the current one, in order. -/
def otherBuckets (s : CacheStorage) : CacheStorage :=
  s.filter (fun b => !decide (b.name = CACHE_NAME))

/-- Whether no bucket of the storage holds the same request key twice. -/
def keysDistinct (s : CacheStorage) : Bool :=
  s.all (fun b => decide ((b.entries.map Prod.fst).Nodup))

/-- Whether a host call is a lookup across the storage, `caches.match`. -/
def isCachesMatch : HostCall → Bool
  | HostCall.cachesMatch _ => true
  | _ => false

/-! ## Sample hosts and storages used to instantiate the theorems -/

/-- Network that is down: every fetch is rejected. -/
def offline : Env := ⟨fun _ => none, true, true⟩

/-- Network answering every request with the same response. -/
def online (r : Response) : Env := ⟨fun _ => some r, true, true⟩

/-- Request for the start page. -/
def pageRequest : Request := Request.get "/dictee-vocale/"

/-- Request that is not a GET: a form submission. -/
def formRequest : Request := ⟨"POST", "/dictee-vocale/"⟩

/-- Storage holding a bucket of an earlier deployment, created first, and the
current bucket, both with an entry for the start page. -/
def twoBuckets : CacheStorage :=
  [ ⟨"dictee-vocale-v0", [(pageRequest, ⟨200, "old page"⟩)]⟩,
    ⟨CACHE_NAME, [(pageRequest, ⟨200, "new page"⟩)]⟩ ]

/-- Storage holding only the current bucket, with an entry for the start page. -/
def oneBucket : CacheStorage :=
  [ ⟨CACHE_NAME, [(pageRequest, ⟨200, "new page"⟩)]⟩ ]

/-! ## Checks of the URL helpers on sample URLs -/

theorem stripFragment_samples :
    stripFragment "/dictee-vocale/#top" = "/dictee-vocale/" ∧
      stripFragment "/dictee-vocale/index.html" = "/dictee-vocale/index.html" := by
  decide

theorem schemeIsHttp_samples :
    schemeIsHttp "/dictee-vocale/" = true ∧
      schemeIsHttp "https://cdn.tailwindcss.com" = true ∧
      schemeIsHttp "HTTP://example.org/a" = true ∧
      schemeIsHttp "chrome-extension://abcdef/page.js" = false ∧
      schemeIsHttp "data:text/plain,hello" = false := by
  decide

theorem requestMatches_ignores_fragment :
    requestMatches (Request.get "/dictee-vocale/#top") (Request.get "/dictee-vocale/") = true := by
  decide

theorem cache_put_rejects_other_scheme (env : Env) (response : Response) (w : World) :
    (cache_put env CACHE_NAME (Request.get "chrome-extension://abcdef/page.js") response w).1 =
      Settled.rejected "TypeError" := by
  have hs : schemeIsHttp "chrome-extension://abcdef/page.js" = false := by decide
  simp [cache_put, Request.get, hs]

/-! ## Evaluation lemmas for the fetch listener -/

theorem fetchListener_of_reject (env : Env) (request : Request) (w : World)
    (h : env.net request = none) :
    fetchListener env request w =
      (Settled.fulfilled (storageMatch w.caches request),
        ⟨w.caches, w.trace ++ [HostCall.fetch request] ++ [HostCall.cachesMatch request]⟩) := by
  simp [fetchListener, Promise.catchWith, Promise.andThen, fetch, h, caches_match, World.record]

theorem fetchListener_of_other_status (env : Env) (request : Request) (w : World)
    (response : Response) (h : env.net request = some response) (hs : response.status ≠ 200) :
    fetchListener env request w =
      (Settled.fulfilled (some response), ⟨w.caches, w.trace ++ [HostCall.fetch request]⟩) := by
  simp [fetchListener, Promise.catchWith, Promise.andThen, fetch, h, onResponse, hs,
    Promise.resolve, World.record]

theorem fetchListener_of_status_200 (env : Env) (request : Request) (w : World)
    (response : Response) (h : env.net request = some response) (hs : response.status = 200) :
    fetchListener env request w =
      (Settled.fulfilled (some response),
        (storeClone env request response.clone (w.record (HostCall.fetch request))).2) := by
  simp [fetchListener, Promise.catchWith, Promise.andThen, fetch, h, onResponse, hs,
    Promise.resolve, Promise.detach]

/-! ## Lookup lemmas -/

theorem storageMatch_append_of_miss (pre : CacheStorage) (rest : CacheStorage)
    (request : Request) (h : ∀ b ∈ pre, cacheMatch b.entries request = none) :
    storageMatch (pre ++ rest) request = storageMatch rest request := by
  induction pre with
  | nil => rfl
  | cons b bs ih =>
    have hb : cacheMatch b.entries request = none := h b (List.mem_cons_self b bs)
    have hbs : ∀ c ∈ bs, cacheMatch c.entries request = none :=
      fun c hc => h c (List.mem_cons_of_mem b hc)
    simp [storageMatch, hb, ih hbs]

theorem storageMatch_of_all_miss (s : CacheStorage) (request : Request)
    (h : ∀ b ∈ s, cacheMatch b.entries request = none) : storageMatch s request = none := by
  have := storageMatch_append_of_miss s [] request h
  simpa [storageMatch] using this

theorem findBucket_ensureBucket (s : CacheStorage) (name : String) :
    ∃ b, findBucket (ensureBucket s name) name = some b := by
  unfold ensureBucket
  by_cases h : (findBucket s name).isSome = true
  · rw [if_pos h]
    exact Option.isSome_iff_exists.mp h
  · rw [if_neg h]
    have hnone : List.find? (fun b => decide (b.name = name)) s = none := by
      simpa [findBucket] using h
    exact ⟨⟨name, []⟩, by simp [findBucket, List.find?_append, hnone]⟩

theorem findBucket_updateBucket (s : CacheStorage) (name : String)
    (f : List (Request × Response) → List (Request × Response)) :
    findBucket (updateBucket s name f) name =
      (findBucket s name).map (fun b => ⟨b.name, f b.entries⟩) := by
  induction s with
  | nil => rfl
  | cons b bs ih =>
    by_cases hb : b.name = name
    · simp [findBucket, updateBucket, List.find?_cons, hb]
    · have ih2 := ih
      simp only [findBucket, updateBucket] at ih2
      simp [findBucket, updateBucket, List.find?_cons, hb, ih2]

theorem cacheMatch_filter_putEntry (entries : List (Request × Response)) (request : Request) :
    List.find? (fun e => requestMatches request e.1)
      (entries.filter (fun e => !requestMatches request e.1)) = none := by
  simp [List.find?_eq_none]

theorem cacheMatch_putEntry_self (entries : List (Request × Response))
    (item : Request × Response) (hget : item.1.method = "GET") :
    cacheMatch (putEntry entries item) item.1 = some item.2 := by
  have hself : requestMatches item.1 item.1 = true := by simp [requestMatches, hget]
  unfold cacheMatch putEntry
  rw [List.find?_append, cacheMatch_filter_putEntry]
  simp [List.find?_cons, hself]

/-! ## Evaluation of the detached store -/

theorem storeClone_of_open_fails (env : Env) (request : Request) (response : Response)
    (w : World) (hopen : env.openOk = false) :
    (storeClone env request response w).2 =
      ⟨w.caches, w.trace ++ [HostCall.cachesOpen CACHE_NAME]⟩ := by
  simp [storeClone, Promise.andThen, caches_open, hopen, World.record]

theorem storeClone_trace (env : Env) (request : Request) (response : Response) (w : World) :
    (storeClone env request response w).2.trace =
      w.trace ++ [HostCall.cachesOpen CACHE_NAME] ∨
    (storeClone env request response w).2.trace =
      w.trace ++ [HostCall.cachesOpen CACHE_NAME] ++
        [HostCall.cachePut CACHE_NAME request response] := by
  cases hopen : env.openOk
  · left
    rw [storeClone_of_open_fails env request response w hopen]
  · right
    simp only [storeClone, Promise.andThen, caches_open, hopen, Promise.detach, cache_put,
      World.record]
    split_ifs <;> rfl

theorem storeClone_stored (env : Env) (request : Request) (response : Response) (w : World)
    (hopen : env.openOk = true) (hwrite : env.writeOk = true)
    (hget : request.method = "GET") (hscheme : schemeIsHttp request.url = true)
    (hstatus : response.status ≠ 206) :
    (storeClone env request response w).2.caches =
      updateBucket (ensureBucket w.caches CACHE_NAME) CACHE_NAME
        (fun es => putEntry es (request, response)) := by
  simp [storeClone, Promise.andThen, caches_open, hopen, Promise.detach, cache_put,
    World.record, hget, hscheme, hstatus, hwrite]

/-! ## Evaluation of the activate listener -/

theorem activateEach_fulfilled (cacheName : String) (w : World) :
    ∃ v, (activateEach cacheName w).1 = Settled.fulfilled v := by
  by_cases h : cacheName = CACHE_NAME
  · exact ⟨none, by simp [activateEach, h, Promise.resolve]⟩
  · exact ⟨some (findBucket w.caches cacheName).isSome, by
      simp [activateEach, h, Promise.andThen, console_log, caches_delete, Promise.resolve,
        World.record]⟩

theorem activateEach_caches (cacheName : String) (w : World) :
    (activateEach cacheName w).2.caches =
      w.caches.filter (fun b => decide (b.name = CACHE_NAME) || !decide (b.name = cacheName)) := by
  by_cases h : cacheName = CACHE_NAME
  · simp [activateEach, h, Promise.resolve]
  · simp only [activateEach, h, Promise.andThen, console_log, caches_delete, Promise.resolve,
      World.record, ne_eq, not_false_eq_true, if_true]
    apply List.filter_congr
    intro b _
    by_cases hb : b.name = cacheName
    · have hc : ¬ b.name = CACHE_NAME := fun h2 => h (hb.symm.trans h2)
      simp [hb, hc, h]
    · simp [hb]

theorem all_activateEach (names : List String) (w : World) :
    (∃ vs, (Promise.all (names.map activateEach) w).1 = Settled.fulfilled vs) ∧
      (Promise.all (names.map activateEach) w).2.caches =
        w.caches.filter (fun b => decide (b.name = CACHE_NAME) || !decide (b.name ∈ names)) := by
  induction names generalizing w with
  | nil => exact ⟨⟨[], rfl⟩, by simp [Promise.all, Promise.resolve]⟩
  | cons n ns ih =>
    obtain ⟨v, hv⟩ := activateEach_fulfilled n w
    have hc := activateEach_caches n w
    obtain ⟨⟨vs, hvs⟩, hcs⟩ := ih (activateEach n w).2
    have hstep : Promise.all ((n :: ns).map activateEach) w =
        (Settled.fulfilled (v :: vs), (Promise.all (ns.map activateEach) (activateEach n w).2).2) := by
      have h1 : activateEach n w = (Settled.fulfilled v, (activateEach n w).2) :=
        Prod.ext hv rfl
      have h2 : Promise.all (ns.map activateEach) (activateEach n w).2 =
          (Settled.fulfilled vs, (Promise.all (ns.map activateEach) (activateEach n w).2).2) :=
        Prod.ext hvs rfl
      simp only [List.map_cons, Promise.all]
      rw [h1]
      simp only []
      rw [h2]
    rw [hstep]
    refine ⟨⟨v :: vs, rfl⟩, ?_⟩
    simp only []
    rw [hcs, hc, List.filter_filter]
    apply List.filter_congr
    intro b _
    by_cases hb : b.name = CACHE_NAME
    · simp [hb]
    · by_cases hn : b.name = n
      · have hb2 : ¬ n = CACHE_NAME := fun h2 => hb (hn.trans h2)
        simp [hn, hb2]
      · simp [hb, hn]

theorem activateListener_caches (w : World) :
    (activateListener w).2.caches = w.caches.filter (fun b => decide (b.name = CACHE_NAME)) := by
  have h := (all_activateEach (w.caches.map (fun b => b.name)) (w.record HostCall.cachesKeys)).2
  simp only [activateListener, Promise.andThen, caches_keys]
  rw [h]
  apply List.filter_congr
  intro b hb
  have hmem : b.name ∈ w.caches.map (fun b => b.name) := List.mem_map_of_mem _ hb
  simp [hmem]

theorem activateListener_fulfilled (w : World) :
    ∃ vs, (activateListener w).1 = Settled.fulfilled vs := by
  have h := (all_activateEach (w.caches.map (fun b => b.name)) (w.record HostCall.cachesKeys)).1
  simpa only [activateListener, Promise.andThen, caches_keys] using h

/-! ## Batch of puts made by `cache.addAll` -/

theorem requestMatches_url (query cached : Request) (h : requestMatches query cached = true) :
    stripFragment query.url = stripFragment cached.url := by
  simp only [requestMatches, Bool.and_eq_true, decide_eq_true_eq] at h
  exact h.2

theorem requestMatches_get_self (url : String) :
    requestMatches (Request.get url) (Request.get url) = true := by
  simp [requestMatches, Request.get]

theorem fetchAll_keys (env : Env) (requests : List Request) (items : List (Request × Response))
    (h : fetchAll env requests = some items) : items.map Prod.fst = requests := by
  induction requests generalizing items with
  | nil =>
    simp only [fetchAll, Option.some.injEq] at h
    simp [← h]
  | cons q qs ih =>
    simp only [fetchAll] at h
    cases hq : env.net q with
    | none => simp [hq] at h
    | some r =>
      simp only [hq] at h
      split_ifs at h
      cases hqs : fetchAll env qs with
      | none => simp [hqs] at h
      | some rest =>
        simp only [hqs, Option.map_some', Option.some.injEq] at h
        simp [← h, ih rest hqs]

theorem fetchAll_responses (env : Env) (requests : List Request)
    (items : List (Request × Response)) (h : fetchAll env requests = some items) :
    ∀ it ∈ items, env.net it.1 = some it.2 := by
  induction requests generalizing items with
  | nil =>
    simp only [fetchAll, Option.some.injEq] at h
    simp [← h]
  | cons q qs ih =>
    simp only [fetchAll] at h
    cases hq : env.net q with
    | none => simp [hq] at h
    | some r =>
      simp only [hq] at h
      split_ifs at h
      cases hqs : fetchAll env qs with
      | none => simp [hqs] at h
      | some rest =>
        simp only [hqs, Option.map_some', Option.some.injEq] at h
        intro it hit
        rw [← h] at hit
        rcases List.mem_cons.mp hit with rfl | hmem
        · exact hq
        · exact ih rest hqs it hmem

theorem foldl_putEntry (items : List (Request × Response)) (entries : List (Request × Response))
    (hpair : items.Pairwise (fun a b => requestMatches b.1 a.1 = false)) :
    items.foldl putEntry entries = entries.filter (survives items) ++ items := by
  induction items generalizing entries with
  | nil =>
    have hall : ∀ e ∈ entries, survives [] e = true := fun e _ => rfl
    simp [List.filter_eq_self.mpr hall]
  | cons it rest ih =>
    obtain ⟨hit, hrest⟩ := List.pairwise_cons.mp hpair
    have hkeep : survives rest it = true := by
      simp only [survives, Bool.not_eq_true', List.any_eq_false]
      intro x hx
      simp [hit x hx]
    rw [List.foldl_cons, ih (putEntry entries it) hrest]
    simp only [putEntry, List.filter_append, List.filter_filter, List.filter_cons, hkeep,
      if_true, List.filter_nil, List.append_assoc, List.singleton_append]
    congr 1
    apply List.filter_congr
    intro e _
    simp [survives, List.any_cons, Bool.and_comm]

/-! ## Evaluation of the install listener -/

theorem urlsToCache_nodup : urlsToCache.Nodup := by decide

theorem urlsToCache_no_two_match : (urlsToCache.map stripFragment).Nodup := by decide

theorem urlsToCache_schemes : urlsToCache.all schemeIsHttp = true := by decide

theorem installListener_fulfilled (env : Env) (w : World) :
    (installListener env w).1 = Settled.fulfilled () := by
  unfold installListener Promise.catchWith
  split
  · rfl
  · rfl

theorem installListener_caches (env : Env) (w : World) :
    (installListener env w).2.caches = installedCaches env w.caches := by
  cases hopen : env.openOk
  · simp [installListener, installAttempt, Promise.catchWith, Promise.andThen, caches_open,
      hopen, console_log, World.record, installedCaches]
  · cases hf : fetchAll env (urlsToCache.map Request.get) with
    | none =>
      simp [installListener, installAttempt, Promise.catchWith, Promise.andThen, caches_open,
        hopen, console_log, World.record, installedCaches, cache_addAll, hf,
        urlsToCache_schemes]
    | some items =>
      cases hwrite : env.writeOk
      · simp [installListener, installAttempt, Promise.catchWith, Promise.andThen, caches_open,
          hopen, console_log, World.record, installedCaches, cache_addAll, hf, hwrite,
          urlsToCache_no_two_match, urlsToCache_schemes]
      · simp [installListener, installAttempt, Promise.catchWith, Promise.andThen, caches_open,
          hopen, console_log, World.record, installedCaches, cache_addAll, hf, hwrite,
          urlsToCache_no_two_match, urlsToCache_schemes]

theorem installAttempt_success (env : Env) (w : World)
    (h : (installAttempt env w).1 = Settled.fulfilled ()) :
    ∃ items, fetchAll env (urlsToCache.map Request.get) = some items ∧
      (installListener env w).2.caches =
        updateBucket (ensureBucket w.caches CACHE_NAME) CACHE_NAME
          (fun es => items.foldl putEntry es) := by
  rw [installListener_caches]
  cases hopen : env.openOk
  · simp [installAttempt, Promise.andThen, caches_open, hopen] at h
  · cases hf : fetchAll env (urlsToCache.map Request.get) with
    | none =>
      simp [installAttempt, Promise.andThen, caches_open, hopen, console_log, cache_addAll,
        hf, urlsToCache_schemes] at h
    | some items =>
      cases hwrite : env.writeOk
      · simp [installAttempt, Promise.andThen, caches_open, hopen, console_log, cache_addAll,
          hf, hwrite, urlsToCache_no_two_match, urlsToCache_schemes] at h
      · exact ⟨items, rfl, by simp [installedCaches, hopen, hf, hwrite]⟩

theorem installAttempt_rejected_logged (env : Env) (w : World) (e : String)
    (h : (installAttempt env w).1 = Settled.rejected e) :
    HostCall.consoleLog ["Erreur de cache:", e] ∈ (installListener env w).2.trace := by
  unfold installListener Promise.catchWith
  split
  · rename_i v w1 heq
    rw [heq] at h
    exact Settled.noConfusion h
  · rename_i e2 w1 heq
    rw [heq] at h
    simp only [Settled.rejected.injEq] at h
    subst h
    simp [console_log, World.record]

/-! ## Properties of the batch the install listener stores -/

theorem get_injective : Function.Injective Request.get := by
  intro a b h
  simpa [Request.get] using h

theorem manifest_items_keys (env : Env) (items : List (Request × Response))
    (h : fetchAll env (urlsToCache.map Request.get) = some items) :
    items.map Prod.fst = urlsToCache.map Request.get :=
  fetchAll_keys env _ items h

theorem manifest_items_pairwise (env : Env) (items : List (Request × Response))
    (h : fetchAll env (urlsToCache.map Request.get) = some items) :
    items.Pairwise (fun a b => requestMatches b.1 a.1 = false) := by
  have hnodup : ((items.map Prod.fst).map (fun q => stripFragment q.url)).Nodup := by
    rw [manifest_items_keys env items h, List.map_map]
    exact urlsToCache_no_two_match
  have hpw : items.Pairwise (fun a b => stripFragment a.1.url ≠ stripFragment b.1.url) := by
    simpa [List.Nodup, List.pairwise_map] using hnodup
  refine hpw.imp ?_
  intro a b hab
  cases hm : requestMatches b.1 a.1 with
  | false => rfl
  | true => exact absurd (requestMatches_url b.1 a.1 hm).symm hab

theorem manifest_items_self_match (env : Env) (items : List (Request × Response))
    (h : fetchAll env (urlsToCache.map Request.get) = some items) :
    ∀ it ∈ items, requestMatches it.1 it.1 = true := by
  intro it hit
  have hmem : it.1 ∈ items.map Prod.fst := List.mem_map_of_mem Prod.fst hit
  rw [manifest_items_keys env items h] at hmem
  obtain ⟨u, _, hu⟩ := List.mem_map.mp hmem
  rw [← hu]
  exact requestMatches_get_self u

theorem manifest_items_mem (env : Env) (items : List (Request × Response))
    (h : fetchAll env (urlsToCache.map Request.get) = some items) (url : String)
    (hurl : url ∈ urlsToCache) : ∃ r, (Request.get url, r) ∈ items := by
  have hmem : Request.get url ∈ items.map Prod.fst := by
    rw [manifest_items_keys env items h]
    exact List.mem_map_of_mem Request.get hurl
  obtain ⟨it, hit, hk⟩ := List.mem_map.mp hmem
  exact ⟨it.2, by rw [← hk]; exact hit⟩

theorem cacheMatch_after_batch (env : Env) (items : List (Request × Response))
    (h : fetchAll env (urlsToCache.map Request.get) = some items)
    (entries : List (Request × Response)) (url : String) (hurl : url ∈ urlsToCache) :
    ∃ r, env.net (Request.get url) = some r ∧
      cacheMatch (items.foldl putEntry entries) (Request.get url) = some r := by
  obtain ⟨r0, hr0⟩ := manifest_items_mem env items h url hurl
  rw [foldl_putEntry items entries (manifest_items_pairwise env items h)]
  have hold : List.find? (fun e => requestMatches (Request.get url) e.1)
      (entries.filter (survives items)) = none := by
    rw [List.find?_eq_none]
    intro e he hm
    have hsurv : survives items e = true := (List.mem_filter.mp he).2
    have hany : items.any (fun it => requestMatches it.1 e.1) = true := by
      rw [List.any_eq_true]
      exact ⟨(Request.get url, r0), hr0, hm⟩
    simp [survives, hany] at hsurv
  unfold cacheMatch
  rw [List.find?_append, hold]
  cases hfind : List.find? (fun e => requestMatches (Request.get url) e.1) items with
  | none =>
    rw [List.find?_eq_none] at hfind
    exact absurd (requestMatches_get_self url) (hfind (Request.get url, r0) hr0)
  | some it =>
    have hm : requestMatches (Request.get url) it.1 = true := by
      have := List.find?_some hfind
      simpa using this
    have hmem : it ∈ items := List.mem_of_find?_eq_some hfind
    have hkey : Request.get url = it.1 := by
      have hk : it.1 ∈ items.map Prod.fst := List.mem_map_of_mem Prod.fst hmem
      rw [manifest_items_keys env items h] at hk
      obtain ⟨u, hu, hget⟩ := List.mem_map.mp hk
      have hstrip : stripFragment url = stripFragment u := by
        have := requestMatches_url _ _ hm
        rw [← hget] at this
        exact this
      have huu : url = u :=
        List.inj_on_of_nodup_map urlsToCache_no_two_match hurl hu hstrip
      rw [← hget, huu]
    refine ⟨it.2, ?_, by simp⟩
    rw [hkey]
    exact fetchAll_responses env _ items h it hmem

/-! ## Running the install listener twice -/

theorem ensureBucket_of_found (s : CacheStorage) (name : String)
    (h : (findBucket s name).isSome = true) : ensureBucket s name = s := by
  simp [ensureBucket, h]

theorem ensureBucket_idem (s : CacheStorage) (name : String) :
    ensureBucket (ensureBucket s name) name = ensureBucket s name := by
  obtain ⟨b, hb⟩ := findBucket_ensureBucket s name
  exact ensureBucket_of_found _ name (by simp [hb])

theorem ensureBucket_updateBucket (s : CacheStorage) (name : String)
    (f : List (Request × Response) → List (Request × Response)) :
    ensureBucket (updateBucket (ensureBucket s name) name f) name =
      updateBucket (ensureBucket s name) name f := by
  obtain ⟨b, hb⟩ := findBucket_ensureBucket s name
  exact ensureBucket_of_found _ name (by simp [findBucket_updateBucket, hb])

theorem updateBucket_twice (s : CacheStorage) (name : String)
    (f : List (Request × Response) → List (Request × Response))
    (hf : ∀ es, f (f es) = f es) :
    updateBucket (updateBucket s name f) name f = updateBucket s name f := by
  unfold updateBucket
  rw [List.map_map]
  apply List.map_congr_left
  intro b _
  by_cases hb : b.name = name
  · simp [hb, hf]
  · simp [hb]

theorem foldl_putEntry_idem (items : List (Request × Response))
    (hpair : items.Pairwise (fun a b => requestMatches b.1 a.1 = false))
    (hself : ∀ it ∈ items, requestMatches it.1 it.1 = true)
    (entries : List (Request × Response)) :
    items.foldl putEntry (items.foldl putEntry entries) = items.foldl putEntry entries := by
  rw [foldl_putEntry items _ hpair, foldl_putEntry items entries hpair]
  have hgone : items.filter (survives items) = [] := by
    rw [List.filter_eq_nil_iff]
    intro it hit
    have hany : items.any (fun x => requestMatches x.1 it.1) = true :=
      List.any_eq_true.mpr ⟨it, hit, hself it hit⟩
    simp [survives, hany]
  rw [List.filter_append, List.filter_filter, hgone, List.append_nil]
  congr 1
  apply List.filter_congr
  intro e _
  simp

theorem installedCaches_idem (env : Env) (s : CacheStorage) :
    installedCaches env (installedCaches env s) = installedCaches env s := by
  cases hopen : env.openOk
  · simp [installedCaches, hopen]
  · cases hf : fetchAll env (urlsToCache.map Request.get) with
    | none => simp [installedCaches, hopen, hf, ensureBucket_idem]
    | some items =>
      cases hwrite : env.writeOk
      · simp [installedCaches, hopen, hf, hwrite, ensureBucket_idem]
      · simp only [installedCaches, hopen, hf, hwrite, if_true]
        rw [ensureBucket_updateBucket]
        exact updateBucket_twice _ _ _ (foldl_putEntry_idem items
          (manifest_items_pairwise env items hf) (manifest_items_self_match env items hf))

theorem otherBuckets_ensureBucket (s : CacheStorage) :
    otherBuckets (ensureBucket s CACHE_NAME) = otherBuckets s := by
  unfold ensureBucket
  split_ifs
  · rfl
  · simp [otherBuckets, List.filter_append]

theorem otherBuckets_updateBucket (s : CacheStorage)
    (f : List (Request × Response) → List (Request × Response)) :
    otherBuckets (updateBucket s CACHE_NAME f) = otherBuckets s := by
  induction s with
  | nil => rfl
  | cons b bs ih =>
    have ih2 := ih
    simp only [otherBuckets, updateBucket] at ih2
    by_cases hb : b.name = CACHE_NAME
    · simp [otherBuckets, updateBucket, List.filter_cons, hb, ih2]
    · simp [otherBuckets, updateBucket, List.filter_cons, hb, ih2]

theorem otherBuckets_installedCaches (env : Env) (s : CacheStorage) :
    otherBuckets (installedCaches env s) = otherBuckets s := by
  cases hopen : env.openOk
  · simp [installedCaches, hopen]
  · cases hf : fetchAll env (urlsToCache.map Request.get) with
    | none => simp [installedCaches, hopen, hf, otherBuckets_ensureBucket]
    | some items =>
      cases hwrite : env.writeOk
      · simp [installedCaches, hopen, hf, hwrite, otherBuckets_ensureBucket]
      · simp [installedCaches, hopen, hf, hwrite, otherBuckets_ensureBucket,
          otherBuckets_updateBucket]

theorem keysDistinct_ensureBucket (s : CacheStorage) (name : String)
    (h : keysDistinct s = true) : keysDistinct (ensureBucket s name) = true := by
  unfold ensureBucket
  split_ifs
  · exact h
  · simpa [keysDistinct, List.all_append] using h

theorem foldl_putEntry_nodup (items : List (Request × Response))
    (hpair : items.Pairwise (fun a b => requestMatches b.1 a.1 = false))
    (hself : ∀ it ∈ items, requestMatches it.1 it.1 = true)
    (hkeys : (items.map Prod.fst).Nodup)
    (entries : List (Request × Response)) (h : (entries.map Prod.fst).Nodup) :
    ((items.foldl putEntry entries).map Prod.fst).Nodup := by
  rw [foldl_putEntry items entries hpair, List.map_append, List.nodup_append]
  refine ⟨h.sublist ((List.filter_sublist entries).map Prod.fst), hkeys, ?_⟩
  intro k hk1 hk2
  obtain ⟨e, he, hek⟩ := List.mem_map.mp hk1
  obtain ⟨it, hit, hitk⟩ := List.mem_map.mp hk2
  have hsurv : survives items e = true := (List.mem_filter.mp he).2
  have hany : items.any (fun x => requestMatches x.1 e.1) = true := by
    refine List.any_eq_true.mpr ⟨it, hit, ?_⟩
    rw [hek, ← hitk]
    exact hself it hit
  simp [survives, hany] at hsurv

theorem keysDistinct_updateBucket (s : CacheStorage) (name : String)
    (f : List (Request × Response) → List (Request × Response))
    (hf : ∀ es, (es.map Prod.fst).Nodup → ((f es).map Prod.fst).Nodup)
    (h : keysDistinct s = true) : keysDistinct (updateBucket s name f) = true := by
  simp only [keysDistinct, List.all_eq_true, decide_eq_true_eq] at h
  simp only [keysDistinct, updateBucket, List.all_eq_true, decide_eq_true_eq, List.mem_map]
  rintro c ⟨b, hb, rfl⟩
  by_cases hn : b.name = name
  · simpa [hn] using hf b.entries (h b hb)
  · simpa [hn] using h b hb

theorem keysDistinct_installedCaches (env : Env) (s : CacheStorage)
    (h : keysDistinct s = true) : keysDistinct (installedCaches env s) = true := by
  cases hopen : env.openOk
  · simpa [installedCaches, hopen] using h
  · cases hf : fetchAll env (urlsToCache.map Request.get) with
    | none => simpa [installedCaches, hopen, hf] using keysDistinct_ensureBucket s CACHE_NAME h
    | some items =>
      cases hwrite : env.writeOk
      · simpa [installedCaches, hopen, hf, hwrite] using
          keysDistinct_ensureBucket s CACHE_NAME h
      · have hkeys : (items.map Prod.fst).Nodup := by
          rw [manifest_items_keys env items hf]
          exact urlsToCache_nodup.map get_injective
        have := keysDistinct_updateBucket (ensureBucket s CACHE_NAME) CACHE_NAME
          (fun es => items.foldl putEntry es)
          (foldl_putEntry_nodup items (manifest_items_pairwise env items hf)
            (manifest_items_self_match env items hf) hkeys)
          (keysDistinct_ensureBucket s CACHE_NAME h)
        simpa [installedCaches, hopen, hf, hwrite] using this

/-! ## The store made for a GET request -/

theorem fetchListener_stores_get (env : Env) (request : Request) (w : World)
    (response : Response)
    (hnet : env.net request = some response) (hstatus : response.status = 200)
    (hget : request.method = "GET") (hscheme : schemeIsHttp request.url = true)
    (hopen : env.openOk = true) (hwrite : env.writeOk = true) :
    bucketMatch (fetchListener env request w).2.caches CACHE_NAME request =
      some response.clone := by
  rw [fetchListener_of_status_200 env request w response hnet hstatus]
  have hne : response.clone.status ≠ 206 := by simp [Response.clone, hstatus]
  rw [storeClone_stored env request response.clone _ hopen hwrite hget hscheme hne]
  obtain ⟨b, hb⟩ := findBucket_ensureBucket (w.record (HostCall.fetch request)).caches CACHE_NAME
  unfold bucketMatch
  rw [findBucket_updateBucket, hb]
  exact cacheMatch_putEntry_self b.entries (request, response.clone) hget

/-! ## Claims about the fetch listener -/

/-- C1, as stated, fails: with the network down, the current bucket holding
"new page" for the start page and an older bucket created earlier holding
"old page" for the same key, the listener answers with the older bucket's
entry, not with the entry of the current bucket. -/
theorem C1_counterexample :
    ¬ (∀ (env : Env) (request : Request) (w : World) (r : Response),
        env.net request = none →
        bucketMatch w.caches CACHE_NAME request = some r →
        (fetchListener env request w).1 = Settled.fulfilled (some r)) := by
  intro h
  have h1 := h offline pageRequest ⟨twoBuckets, []⟩ ⟨200, "new page"⟩ rfl (by decide)
  rw [fetchListener_of_reject offline pageRequest ⟨twoBuckets, []⟩ rfl] at h1
  revert h1
  decide

/-- C1, amended: when the live fetch is rejected, the listener answers with
exactly the entry of the first bucket, in creation order, that holds one for
the request key: if no bucket of `pre` (the buckets created before `b`) holds
an entry for the key and `b` holds the entry `r`, the response is `r`,
whatever the name of `b` and whatever the buckets created later (`post`)
hold.  With `b` the bucket named CACHE_NAME: the entry of the current bucket
is the response whenever no bucket created before it holds the key. -/
theorem C1_fallback_hit (env : Env) (request : Request) (pre post : CacheStorage)
    (b : Bucket) (trace : List HostCall) (r : Response)
    (hnet : env.net request = none)
    (hhit : cacheMatch b.entries request = some r)
    (hpre : ∀ c ∈ pre, cacheMatch c.entries request = none) :
    (fetchListener env request ⟨pre ++ b :: post, trace⟩).1 = Settled.fulfilled (some r) := by
  rw [fetchListener_of_reject env request _ hnet]
  simp [storageMatch_append_of_miss pre (b :: post) request hpre, storageMatch, hhit]

/-- Witness of C1_fallback_hit: the request carries a fragment; a bucket created
earlier holds nothing for the key, the current bucket holds "new page" and a
bucket created later holds "other page" for the same key. -/
theorem C1_fallback_hit_witness :
    (fetchListener offline (Request.get "/dictee-vocale/#top")
      ⟨[⟨"dictee-vocale-v0", []⟩] ++ ⟨CACHE_NAME, [(pageRequest, ⟨200, "new page"⟩)]⟩ ::
        [⟨"dictee-vocale-v2", [(pageRequest, ⟨200, "other page"⟩)]⟩],
        []⟩).1 = Settled.fulfilled (some ⟨200, "new page"⟩) :=
  C1_fallback_hit offline (Request.get "/dictee-vocale/#top") [⟨"dictee-vocale-v0", []⟩]
    [⟨"dictee-vocale-v2", [(pageRequest, ⟨200, "other page"⟩)]⟩]
    ⟨CACHE_NAME, [(pageRequest, ⟨200, "new page"⟩)]⟩ [] ⟨200, "new page"⟩ rfl (by decide)
    (by decide)

/-- C6: when the live fetch is rejected and no bucket holds an entry for the
request key, the promise handed to respondWith fulfils with `undefined`
(`none`) and the cache storage is left as it was. -/
theorem C6_fallback_miss (env : Env) (request : Request) (w : World)
    (hnet : env.net request = none)
    (hmiss : ∀ b ∈ w.caches, cacheMatch b.entries request = none) :
    (fetchListener env request w).1 = Settled.fulfilled none ∧
      (fetchListener env request w).2.caches = w.caches := by
  rw [fetchListener_of_reject env request w hnet]
  exact ⟨by rw [storageMatch_of_all_miss w.caches request hmiss], rfl⟩

/-- Witness of C6_fallback_miss: network down, the only bucket holds the start
page and the request is for another URL. -/
theorem C6_fallback_miss_witness :
    (fetchListener offline (Request.get "/dictee-vocale/absent.png") ⟨oneBucket, []⟩).1 =
        Settled.fulfilled none ∧
      (fetchListener offline (Request.get "/dictee-vocale/absent.png") ⟨oneBucket, []⟩).2.caches =
        oneBucket :=
  C6_fallback_miss offline (Request.get "/dictee-vocale/absent.png") ⟨oneBucket, []⟩ rfl
    (by decide)

/-- C9: when the live fetch resolves with a status other than 200, the listener
makes no host call besides the fetch itself (no open, no put), so the cache
storage after handling equals the cache storage before. -/
theorem C9_only_200_stored (env : Env) (request : Request) (w : World) (response : Response)
    (hnet : env.net request = some response) (hstatus : response.status ≠ 200) :
    (fetchListener env request w).2.caches = w.caches ∧
      (fetchListener env request w).2.trace = w.trace ++ [HostCall.fetch request] := by
  rw [fetchListener_of_other_status env request w response hnet hstatus]
  exact ⟨rfl, rfl⟩

/-- Witness of C9_only_200_stored: a 404 answer leaves the storage untouched. -/
theorem C9_only_200_stored_witness :
    (fetchListener (online ⟨404, "not found"⟩) pageRequest ⟨oneBucket, []⟩).2.caches =
        oneBucket ∧
      (fetchListener (online ⟨404, "not found"⟩) pageRequest ⟨oneBucket, []⟩).2.trace =
        [] ++ [HostCall.fetch pageRequest] :=
  C9_only_200_stored (online ⟨404, "not found"⟩) pageRequest ⟨oneBucket, []⟩ ⟨404, "not found"⟩
    rfl (by decide)

/-- C5: when the live fetch resolves with a response, whatever its status, the
promise handed to respondWith fulfils with exactly that response, for every
outcome of opening the bucket and of the put (`env.openOk` and `env.writeOk`
are arbitrary), and none of the host calls the listener makes is a
`caches.match`. -/
theorem C5_live_response_returned (env : Env) (request : Request) (w : World)
    (response : Response) (hnet : env.net request = some response) :
    (fetchListener env request w).1 = Settled.fulfilled (some response) ∧
      ∃ calls, (fetchListener env request w).2.trace = w.trace ++ calls ∧
        calls.any isCachesMatch = false := by
  by_cases hs : response.status = 200
  · rw [fetchListener_of_status_200 env request w response hnet hs]
    refine ⟨rfl, ?_⟩
    rcases storeClone_trace env request response.clone (w.record (HostCall.fetch request))
      with ht | ht
    · exact ⟨[HostCall.fetch request, HostCall.cachesOpen CACHE_NAME], by
        rw [ht]; simp [World.record], rfl⟩
    · exact ⟨[HostCall.fetch request, HostCall.cachesOpen CACHE_NAME,
        HostCall.cachePut CACHE_NAME request response.clone], by
        rw [ht]; simp [World.record], rfl⟩
  · rw [fetchListener_of_other_status env request w response hnet hs]
    exact ⟨rfl, [HostCall.fetch request], rfl, rfl⟩

/-- Witness of C5_live_response_returned: a 200 answer is returned although
opening the bucket fails. -/
theorem C5_live_response_returned_witness :
    (fetchListener ⟨fun _ => some ⟨200, "page"⟩, false, false⟩ pageRequest ⟨[], []⟩).1 =
        Settled.fulfilled (some ⟨200, "page"⟩) ∧
      ∃ calls,
        (fetchListener ⟨fun _ => some ⟨200, "page"⟩, false, false⟩ pageRequest ⟨[], []⟩).2.trace =
          [] ++ calls ∧ calls.any isCachesMatch = false :=
  C5_live_response_returned ⟨fun _ => some ⟨200, "page"⟩, false, false⟩ pageRequest ⟨[], []⟩
    ⟨200, "page"⟩ rfl

/-- C2, evaluated where the code falls short of it: a POST request answered
live with status 200, on a host where the bucket opens and writes are
accepted.  The listener returns the live response and does call `cache.put`
with the POST request, but that put is rejected and its rejection dropped, so
the bucket named CACHE_NAME stays empty and neither a lookup in that bucket
nor `caches.match` returns the response. -/
theorem C2_post_not_stored :
    (fetchListener (online ⟨200, "saved"⟩) formRequest ⟨[], []⟩).1 =
        Settled.fulfilled (some ⟨200, "saved"⟩) ∧
      (fetchListener (online ⟨200, "saved"⟩) formRequest ⟨[], []⟩).2.trace =
        [HostCall.fetch formRequest, HostCall.cachesOpen CACHE_NAME,
          HostCall.cachePut CACHE_NAME formRequest ⟨200, "saved"⟩] ∧
      (cache_put (online ⟨200, "saved"⟩) CACHE_NAME formRequest ⟨200, "saved"⟩
          ⟨[⟨CACHE_NAME, []⟩], []⟩).1 = Settled.rejected "TypeError" ∧
      (fetchListener (online ⟨200, "saved"⟩) formRequest ⟨[], []⟩).2.caches =
        [⟨CACHE_NAME, []⟩] ∧
      bucketMatch (fetchListener (online ⟨200, "saved"⟩) formRequest ⟨[], []⟩).2.caches
        CACHE_NAME formRequest = none ∧
      storageMatch (fetchListener (online ⟨200, "saved"⟩) formRequest ⟨[], []⟩).2.caches
        formRequest = none := by
  decide

/-! ## Claims about the activate listener -/

/-- C3: for every storage, the work of the activate listener fulfils and
afterwards the set of names of the remaining buckets is a subset of
the singleton CACHE_NAME: every bucket of another name is gone. -/
theorem C3_activate_deletes_stale (w : World) :
    (∃ vs, (activateListener w).1 = Settled.fulfilled vs) ∧
      ((activateListener w).2.caches.map (fun b => b.name)).toFinset ⊆ {CACHE_NAME} := by
  refine ⟨activateListener_fulfilled w, ?_⟩
  intro n hn
  rw [activateListener_caches] at hn
  simp only [List.mem_toFinset, List.mem_map, List.mem_filter, decide_eq_true_eq] at hn
  obtain ⟨b, ⟨_, hb⟩, rfl⟩ := hn
  simp [hb]

/-- C4: a bucket named CACHE_NAME that exists before activation is still
there after activation, with the same entries. -/
theorem C4_activate_preserves_current (w : World) (b : Bucket)
    (h : findBucket w.caches CACHE_NAME = some b) :
    findBucket (activateListener w).2.caches CACHE_NAME = some b := by
  rw [activateListener_caches, ← h]
  unfold findBucket
  induction w.caches with
  | nil => rfl
  | cons c cs ih =>
    by_cases hc : c.name = CACHE_NAME
    · simp [List.filter_cons, List.find?_cons, hc]
    · simp [List.filter_cons, List.find?_cons, hc, ih]

/-- Witness of C4_activate_preserves_current: the current bucket survives next
to a bucket of an earlier deployment. -/
theorem C4_activate_preserves_current_witness :
    findBucket (activateListener ⟨twoBuckets, []⟩).2.caches CACHE_NAME =
      some ⟨CACHE_NAME, [(pageRequest, ⟨200, "new page"⟩)]⟩ :=
  C4_activate_preserves_current ⟨twoBuckets, []⟩
    ⟨CACHE_NAME, [(pageRequest, ⟨200, "new page"⟩)]⟩ (by decide)

/-! ## Claims about the install listener -/

/-- C10: for every outcome of opening the bucket and of the bulk pre-cache, the
work the install listener registers with waitUntil fulfils; when the chain
before the catch is rejected, the reason is logged with "Erreur de cache:". -/
theorem C10_install_failure_non_fatal (env : Env) (w : World) :
    (installListener env w).1 = Settled.fulfilled () ∧
      ((installAttempt env w).1 = Settled.fulfilled () ∨
        ∃ e, (installAttempt env w).1 = Settled.rejected e ∧
          HostCall.consoleLog ["Erreur de cache:", e] ∈ (installListener env w).2.trace) := by
  refine ⟨installListener_fulfilled env w, ?_⟩
  cases h : (installAttempt env w).1 with
  | fulfilled v => exact Or.inl rfl
  | rejected e => exact Or.inr ⟨e, rfl, installAttempt_rejected_logged env w e h⟩

/-- C7: when the chain of the install listener succeeds (the bucket opens and
the bulk insert of the manifest succeeds), every URL of urlsToCache has been
fetched and a lookup of its request key in the bucket named CACHE_NAME
returns the response fetched for it. -/
theorem C7_install_precaches_manifest (env : Env) (w : World) (url : String)
    (hok : (installAttempt env w).1 = Settled.fulfilled ())
    (hurl : url ∈ urlsToCache) :
    ∃ r, env.net (Request.get url) = some r ∧
      bucketMatch (installListener env w).2.caches CACHE_NAME (Request.get url) = some r := by
  obtain ⟨items, hitems, hcaches⟩ := installAttempt_success env w hok
  obtain ⟨b, hb⟩ := findBucket_ensureBucket w.caches CACHE_NAME
  obtain ⟨r, hr, hmatch⟩ := cacheMatch_after_batch env items hitems b.entries url hurl
  refine ⟨r, hr, ?_⟩
  rw [hcaches]
  unfold bucketMatch
  rw [findBucket_updateBucket, hb]
  exact hmatch

/-- Witness of C7_install_precaches_manifest: every asset is answered with
status 200 and the storage starts empty; the stylesheet of the manifest is
then found in the current bucket. -/
theorem C7_install_precaches_manifest_witness :
    ∃ r, (online ⟨200, "asset"⟩).net (Request.get "https://cdn.tailwindcss.com") = some r ∧
      bucketMatch (installListener (online ⟨200, "asset"⟩) ⟨[], []⟩).2.caches CACHE_NAME
        (Request.get "https://cdn.tailwindcss.com") = some r :=
  C7_install_precaches_manifest (online ⟨200, "asset"⟩) ⟨[], []⟩ "https://cdn.tailwindcss.com"
    (by decide) (by decide)

/-- C8: running the install listener twice against the same host behaviour
leaves the cache storage exactly as running it once does (same buckets, same
keys, same stored responses, same order); if no bucket held a key twice
before, none does afterwards; and the buckets other than the one named
CACHE_NAME are the ones that were there before, unchanged. -/
theorem C8_install_idempotent (env : Env) (w : World) :
    (installListener env (installListener env w).2).2.caches =
        (installListener env w).2.caches ∧
      (keysDistinct w.caches = true →
        keysDistinct (installListener env (installListener env w).2).2.caches = true) ∧
      otherBuckets (installListener env (installListener env w).2).2.caches =
        otherBuckets w.caches := by
  have htwice : (installListener env (installListener env w).2).2.caches =
      (installListener env w).2.caches := by
    rw [installListener_caches, installListener_caches, installedCaches_idem]
  refine ⟨htwice, ?_, ?_⟩
  · intro h
    rw [htwice, installListener_caches]
    exact keysDistinct_installedCaches env w.caches h
  · rw [htwice, installListener_caches]
    exact otherBuckets_installedCaches env w.caches

/-- Witness of C8_install_idempotent: two installs on a storage that holds a
bucket of an earlier deployment and the current bucket. -/
theorem C8_install_idempotent_witness :
    (installListener (online ⟨200, "asset"⟩)
        (installListener (online ⟨200, "asset"⟩) ⟨twoBuckets, []⟩).2).2.caches =
      (installListener (online ⟨200, "asset"⟩) ⟨twoBuckets, []⟩).2.caches ∧
    keysDistinct (installListener (online ⟨200, "asset"⟩)
        (installListener (online ⟨200, "asset"⟩) ⟨twoBuckets, []⟩).2).2.caches = true ∧
    otherBuckets (installListener (online ⟨200, "asset"⟩)
        (installListener (online ⟨200, "asset"⟩) ⟨twoBuckets, []⟩).2).2.caches =
      otherBuckets twoBuckets :=
  ⟨(C8_install_idempotent (online ⟨200, "asset"⟩) ⟨twoBuckets, []⟩).1,
    (C8_install_idempotent (online ⟨200, "asset"⟩) ⟨twoBuckets, []⟩).2.1 (by decide),
    (C8_install_idempotent (online ⟨200, "asset"⟩) ⟨twoBuckets, []⟩).2.2⟩

end DicteeVocale
